import Mathlib

/-!
Verification of the h100-features single-tile matmul microkernels.

Shallow embedding of:
* the dense wgmma kernel (dense translation unit, `kernel`): M=64, N=16, K=16;
* the sparse wgmma kernel (`5_tma_2d.cu`, second translation unit, `kernel`):
  M=64, N=8, K=64, compressed K_A=32, 2:4 structured sparsity;
* the 1D TMA copy example (`5_tma_2d.cu`, third translation unit,
  `add_one_kernel`): 128-element array, 16-element tiles;
* the block-scoped arrival barrier (cuda::barrier, modelled from the spec);
* host-side 2:4 compression and metadata inspection (matrix_utilities.cuh,
  modelled from the spec).
-/

namespace H100

/-! ## Thread coordinates

From both wgmma kernels:
`warp_id = tid / 32`, `lane_id = tid % 32`, `group_id = lane_id >> 2`,
`lane_in_group = lane_id & 3`; the sparse kernel additionally has
`lane_in_work_group = lane_in_group % 2`. -/

def warp_id (tid : ℕ) : ℕ := tid / 32

def lane_id (tid : ℕ) : ℕ := tid % 32

def group_id (tid : ℕ) : ℕ := Nat.shiftRight (lane_id tid) 2

def lane_in_group (tid : ℕ) : ℕ := Nat.land (lane_id tid) 3

def lane_in_work_group (tid : ℕ) : ℕ := lane_in_group tid % 2

/-! ## Result scatter offsets

Dense kernel (stores into the `uint32_t` view of C, extent M*N/2 = 512):
`offset1 = warp_id * 16 * 8 + group_id * 8 + lane_in_group`,
`offset2 = warp_id * 16 * 8 + (group_id + 8) * 8 + lane_in_group`,
registers `c[0..3]` stored at `offset1, offset2, offset1 + 4, offset2 + 4`.

Sparse kernel (extent M*N/2 = 256):
`offset1 = warp_id * 16 * 4 + group_id * 4 + lane_in_group`,
`offset2 = warp_id * 16 * 4 + (group_id + 8) * 4 + lane_in_group`,
registers `c[0], c[1]` stored at `offset1, offset2`. -/

def dense_offset1 (tid : ℕ) : ℕ :=
  warp_id tid * 16 * 8 + group_id tid * 8 + lane_in_group tid

def dense_offset2 (tid : ℕ) : ℕ :=
  warp_id tid * 16 * 8 + (group_id tid + 8) * 8 + lane_in_group tid

/-- The dense kernel four 32-bit output offsets, indexed by the
accumulator register slot they store (`C_ptr[offset1] = c[0]` etc.). -/
def dense_slot_offset (tid : ℕ) : ℕ → ℕ
  | 0 => dense_offset1 tid
  | 1 => dense_offset2 tid
  | 2 => dense_offset1 tid + 4
  | _ => dense_offset2 tid + 4

def sparse_offset1 (tid : ℕ) : ℕ :=
  warp_id tid * 16 * 4 + group_id tid * 4 + lane_in_group tid

def sparse_offset2 (tid : ℕ) : ℕ :=
  warp_id tid * 16 * 4 + (group_id tid + 8) * 4 + lane_in_group tid

/-- The sparse kernel two 32-bit output offsets, indexed by register slot. -/
def sparse_slot_offset (tid : ℕ) : ℕ → ℕ
  | 0 => sparse_offset1 tid
  | _ => sparse_offset2 tid

/-- Result-scatter map of the dense kernel: (thread, register slot) to
32-bit output offset. -/
def dense_scatter (p : Fin 128 × Fin 4) : ℕ := dense_slot_offset p.1.val p.2.val

/-- Result-scatter map of the sparse kernel. -/
def sparse_scatter (p : Fin 128 × Fin 2) : ℕ := sparse_slot_offset p.1.val p.2.val

/-! ## Sparse metadata offsets

First mma: `metadata_offset = warp_id * 8 * 4 + lane_in_work_group * 8 + group_id`;
second mma: `metadata_offset = warp_id * 8 * 4 + 8 * 2 + lane_in_work_group * 8 + group_id`;
the host allocates `(M/16) * (K/16) * 8` 32-bit words. -/

def metadata_offset_first (tid : ℕ) : ℕ :=
  warp_id tid * 8 * 4 + lane_in_work_group tid * 8 + group_id tid

def metadata_offset_second (tid : ℕ) : ℕ :=
  warp_id tid * 8 * 4 + 8 * 2 + lane_in_work_group tid * 8 + group_id tid

def metadata_size : ℕ := (64 / 16) * (64 / 16) * 8

/-! ## Arrival barrier

Modelled from the spec: the `cuda::barrier<cuda::thread_scope_block>`
implementation is not under src/ (only its call sites are).  Spec §3/§4.1:
an expected-arrival count plus an expected-transaction byte count; the total
of per-thread arrivals and asynchronously-signalled transaction bytes must
reach the expected sum before any waiter is released; a new phase begins
after release. -/

inductive BarEvent where
  | arrive : BarEvent
  | arriveTx : ℕ → BarEvent
  | completeTx : ℕ → BarEvent
deriving DecidableEq

structure BarState where
  pendingArrivals : ℕ
  pendingTxBytes : ℕ
  phase : ℕ
deriving DecidableEq

/-- `init(&bar, blockDim.x)`: all participants pending, no transaction
bytes declared, phase 0. -/
def initBar (expected : ℕ) : BarState := ⟨expected, 0, 0⟩

/-- One barrier interaction.  `arrive` is `bar.arrive()`;
`arriveTx b` is `barrier_arrive_tx(bar, 1, b)` (one arrival plus `b`
expected transaction bytes); `completeTx b` is the async copy engine
crediting `b` transferred bytes.  Over-arrival and over-crediting are
invalid uses (undefined behaviour in the source API) and yield `none`. -/
def barStep (s : BarState) : BarEvent → Option BarState
  | .arrive =>
    if s.pendingArrivals = 0 then none
    else some ⟨s.pendingArrivals - 1, s.pendingTxBytes, s.phase⟩
  | .arriveTx b =>
    if s.pendingArrivals = 0 then none
    else some ⟨s.pendingArrivals - 1, s.pendingTxBytes + b, s.phase⟩
  | .completeTx b =>
    if b ≤ s.pendingTxBytes then some ⟨s.pendingArrivals, s.pendingTxBytes - b, s.phase⟩
    else none

def runBar (s : BarState) : List BarEvent → Option BarState
  | [] => some s
  | e :: es =>
    match barStep s e with
    | none => none
    | some t => runBar t es

/-- `wait(token)` of the current phase returns exactly when the phase is
complete: all arrivals in and all declared transaction bytes credited. -/
def phaseComplete (s : BarState) : Prop :=
  s.pendingArrivals = 0 ∧ s.pendingTxBytes = 0

instance (s : BarState) : Decidable (phaseComplete s) := by
  unfold phaseComplete
  infer_instance

/-- Releasing the waiters starts the next phase. -/
def releaseBar (s : BarState) (expected : ℕ) : BarState := ⟨expected, 0, s.phase + 1⟩

def countArrivals : List BarEvent → ℕ
  | [] => 0
  | .arrive :: es => countArrivals es + 1
  | .arriveTx _ :: es => countArrivals es + 1
  | .completeTx _ :: es => countArrivals es

def declaredTxBytes : List BarEvent → ℕ
  | [] => 0
  | .arriveTx b :: es => b + declaredTxBytes es
  | .arrive :: es => declaredTxBytes es
  | .completeTx _ :: es => declaredTxBytes es

def creditedTxBytes : List BarEvent → ℕ
  | [] => 0
  | .completeTx b :: es => b + creditedTxBytes es
  | .arrive :: es => creditedTxBytes es
  | .arriveTx _ :: es => creditedTxBytes es

/-- The event schedule of the dense kernel load phase: thread 0 issues the
two bulk copies and arrives with `sizeof(A_shared) + sizeof(B_shared)` =
(64*16 + 16*16)*2 = 2560 transaction bytes; the other 127 threads plainly
arrive; the copy engine later credits the 2560 bytes. -/
def denseLoadSchedule : List BarEvent :=
  BarEvent.arriveTx 2560 :: (List.replicate 127 BarEvent.arrive ++ [BarEvent.completeTx 2560])

/-! ## 1D TMA add-one kernel

`add_one_kernel` in the third translation unit of 5_tma_2d.cu:
`array_size = 128`, `tile_size = 16`.  The TMA 1D load/store at
`coordinate` moves elements `[coordinate, coordinate + tile_size)`
(tensor-map coordinate semantics modelled from the spec: the coordinate is
the element offset of the tile). -/

def array_size : ℕ := 128

def tile_size : ℕ := 16

/-- `cp_async_bulk_tensor_1d_global_to_shared(tile_shared, &tensor_map, coordinate, bar)`. -/
def tile_load (data : ℕ → ℤ) (coordinate : ℕ) : Fin 16 → ℤ :=
  fun i => data (coordinate + i.val)

/-- The update loop: each thread `tid < 128` visits `i = tid` only
(stride `blockDim.x = 128`), and increments `tile_shared[i]` when
`i < tile_size`; so every tile element is incremented exactly once. -/
def tile_add_one (tile : Fin 16 → ℤ) : Fin 16 → ℤ :=
  fun i => tile i + 1

/-- `cp_async_bulk_tensor_1d_shared_to_global(&tensor_map, coordinate, tile_shared)`. -/
def tile_store (data : ℕ → ℤ) (coordinate : ℕ) (tile : Fin 16 → ℤ) : ℕ → ℤ :=
  fun j =>
    if h : coordinate ≤ j ∧ j < coordinate + 16 then tile ⟨j - coordinate, by omega⟩
    else data j

/-- The whole kernel: load the tile, add one to every element, store back. -/
def add_one_kernel (data : ℕ → ℤ) (coordinate : ℕ) : ℕ → ℤ :=
  tile_store data coordinate (tile_add_one (tile_load data coordinate))

/-! ## Kernel instruction traces

Per-thread traces of the accumulator-relevant instructions issued by the
two wgmma kernels, in program order.  Events carry the operand facts the
source fixes: descriptor base offsets (in half elements from the start of
the shared buffers), metadata offsets, the K extent of the instruction
shape, the scale-D immediate, and which accumulator register each final
store reads. -/

inductive KEvent where
  | initAccZero : ℕ → KEvent
  | denseMma : ℕ → ℕ → ℕ → KEvent
  | sparseMma : ℕ → ℕ → ℕ → ℕ → ℕ → KEvent
  | commitBatch : KEvent
  | waitBatch : ℕ → KEvent
  | storeAcc : ℕ → ℕ → KEvent
deriving DecidableEq

/-- Dense kernel, per thread: `uint32_t c[4] = {}`; one
`wgmma.mma_async...m64n16k16` with descriptors on `A_shared` and
`B_shared` (offsets 0) and scale-D immediate 1; `warpgroup_commit_batch`;
`warpgroup_wait<0>`; four stores of `c[0..3]`. -/
def dense_kernel_trace (tid : ℕ) : List KEvent :=
  [ .initAccZero 4,
    .denseMma 0 0 1,
    .commitBatch,
    .waitBatch 0,
    .storeAcc (dense_offset1 tid) 0,
    .storeAcc (dense_offset2 tid) 1,
    .storeAcc (dense_offset1 tid + 4) 2,
    .storeAcc (dense_offset2 tid + 4) 3 ]

/-- Sparse kernel, per thread: `uint32_t c[2] = {}`; two
`wgmma.mma_async.sp...m64n8k32` calls, the first with descriptors on
`A_shared` and `B_shared` and the first metadata offset, the second with
descriptors on `A_shared + K_A / 2` (= 16 half elements) and
`B_shared + 32 * N` (= 256 half elements) and the second metadata offset;
both with scale-D 1 (register operand); then one `warpgroup_commit_batch`,
`warpgroup_wait<0>`, and two stores of `c[0], c[1]`. -/
def sparse_kernel_trace (tid : ℕ) : List KEvent :=
  [ .initAccZero 2,
    .sparseMma 0 0 (metadata_offset_first tid) 32 1,
    .sparseMma (32 / 2) (32 * 8) (metadata_offset_second tid) 32 1,
    .commitBatch,
    .waitBatch 0,
    .storeAcc (sparse_offset1 tid) 0,
    .storeAcc (sparse_offset2 tid) 1 ]

def isSparseMma : KEvent → Bool
  | .sparseMma _ _ _ _ _ => true
  | _ => false

def isCommit : KEvent → Bool
  | .commitBatch => true
  | _ => false

def isStore : KEvent → Bool
  | .storeAcc _ _ => true
  | _ => false

def storeRegOf : KEvent → ℕ
  | .storeAcc _ r => r
  | _ => 0

def kExtentOf : KEvent → ℕ
  | .sparseMma _ _ _ kExt _ => kExt
  | _ => 0

/-- True unless the event is an mma whose scale-D operand is not 1
(scale-D = 1 means D = D + A*B, i.e. additive update). -/
def scaleDOne : KEvent → Bool
  | .denseMma _ _ sd => sd == 1
  | .sparseMma _ _ _ _ sd => sd == 1
  | _ => true

/-! ## Matrix-descriptor build calls

One record per `make_desc` / `make_desc_a` / `make_desc_b` call site:
the base pointer byte offset from the start of its shared buffer, the
buffer declared `__align__`, and the swizzle-mode template argument. -/

structure DescCall where
  byteOffset : ℕ
  bufferAlign : ℕ
  swizzle : ℕ
deriving DecidableEq

/-- All six descriptor-build call sites.  Dense kernel:
`make_desc_a<half *, 3>(A_shared)` with `__align__(128) A_shared`, and
`make_desc_b<half *, 3>(B_shared)` with `__align__(16) B_shared`.
Sparse kernel: `make_desc<half *, 8, 32, 2>(A_shared)`,
`make_desc<half *, 8, 16, 0>(B_shared)`,
`make_desc<half *, 8, 32, 2>(A_shared + K_A / 2)` (16 halfs = 32 bytes), and
`make_desc<half *, 8, 8, 0>(B_shared + 32 * N)` (256 halfs = 512 bytes). -/
def make_desc_calls : List DescCall :=
  [ ⟨0, 128, 3⟩, ⟨0, 16, 3⟩,
    ⟨0, 128, 2⟩, ⟨0, 16, 0⟩,
    ⟨2 * (32 / 2), 128, 2⟩, ⟨2 * (32 * 8), 16, 0⟩ ]

/-- Alignment the spec requires of a descriptor base pointer:
128 bytes when a swizzle mode is selected, 16 bytes when swizzle is none. -/
def requiredAlign (c : DescCall) : ℕ := if c.swizzle ≠ 0 then 128 else 16

/-- The base pointer of call `c` is guaranteed `n`-byte aligned: whatever
address the buffer gets (any address consistent with its declared
alignment), base + offset is a multiple of `n`. -/
def alignedFor (c : DescCall) (n : ℕ) : Prop :=
  ∀ base : ℕ, base % c.bufferAlign = 0 → (base + c.byteOffset) % n = 0

/-- The alignment claim exactly as the spec states it: every
descriptor-build call satisfies the alignment its swizzle mode requires. -/
def descAlignClaim : Prop :=
  ∀ c ∈ make_desc_calls, alignedFor c (requiredAlign c)

/-! ## Exact-arithmetic compute model

The wgmma instructions, the host reference `CPU_gemm`, and the host 2:4
helpers `compress24` / `inspect_metadata` (matrix_utilities.cuh) are not
under src/; they are modelled from the spec over exact rational
arithmetic: `CPU_gemm` as the triple-loop sum of products, the sparse
instruction as the sum over compressed values times the B rows selected by
the metadata indices (spec §4.4, §6). -/

def kIndex (g : Fin 16) (j : Fin 4) : Fin 64 := ⟨4 * g.val + j.val, by omega⟩

/-- The 4-element group of row `i` of A at K-group `g`. -/
def groupOf (A : Fin 64 → Fin 64 → ℚ) (i : Fin 64) (g : Fin 16) : Fin 4 → ℚ :=
  fun j => A i (kIndex g j)

/-- Positions of the nonzero elements of a 4-group, in increasing order. -/
def nzIndices (v : Fin 4 → ℚ) : List (Fin 4) :=
  (List.finRange 4).filter (fun j => decide (v j ≠ 0))

/-- The 2:4 structural invariant of one group: exactly 2 nonzeros. -/
def is24 (v : Fin 4 → ℚ) : Prop := (nzIndices v).length = 2

/-- The whole matrix satisfies 2:4 along K. -/
def has24pattern (A : Fin 64 → Fin 64 → ℚ) : Prop :=
  ∀ i g, is24 (groupOf A i g)

instance (v : Fin 4 → ℚ) : Decidable (is24 v) := by
  unfold is24
  infer_instance

instance (A : Fin 64 → Fin 64 → ℚ) : Decidable (has24pattern A) := by
  unfold has24pattern
  infer_instance

/-- Modelled from the spec: `compress24(h_A, h_A2, M, K)` extracts the
nonzeros of each 2:4 group of A into the 64×32 compressed matrix — column
`2g + s` of A2 holds the `s`-th nonzero of group `g`. -/
def compress24 (A : Fin 64 → Fin 64 → ℚ) : Fin 64 → Fin 32 → ℚ :=
  fun i c =>
    let g : Fin 16 := ⟨c.val / 2, by omega⟩
    ((nzIndices (groupOf A i g)).map (groupOf A i g)).getD (c.val % 2) 0

/-- Modelled from the spec: `inspect_metadata(h_A, metadata_array, M, K)`
records, per row and K-group, which 2 of the 4 elements are nonzero. -/
def inspect_metadata (A : Fin 64 → Fin 64 → ℚ) : Fin 64 → Fin 16 → Fin 4 × Fin 4 :=
  fun i g =>
    ((nzIndices (groupOf A i g)).getD 0 0, (nzIndices (groupOf A i g)).getD 1 0)

/-- Modelled from the spec: the result of the sparse mma pipeline — for
each K-group, the two stored values of the compressed A multiply the B rows
selected by the metadata, all accumulating into one accumulator. -/
def sparse_compute (A2 : Fin 64 → Fin 32 → ℚ)
    (meta : Fin 64 → Fin 16 → Fin 4 × Fin 4)
    (B : Fin 64 → Fin 8 → ℚ) : Fin 64 → Fin 8 → ℚ :=
  fun i j =>
    ∑ g : Fin 16,
      (A2 i ⟨2 * g.val, by omega⟩ * B (kIndex g (meta i g).1) j +
       A2 i ⟨2 * g.val + 1, by omega⟩ * B (kIndex g (meta i g).2) j)

/-- Modelled from the spec: `CPU_gemm` for the sparse shape
(M=64, N=8, K=64). -/
def gemm_ref (A : Fin 64 → Fin 64 → ℚ) (B : Fin 64 → Fin 8 → ℚ) :
    Fin 64 → Fin 8 → ℚ :=
  fun i j => ∑ k, A i k * B k j

/-- Modelled from the spec: `CPU_gemm` for the dense shape
(M=64, N=16, K=16). -/
def dense_matmul (A : Fin 64 → Fin 16 → ℚ) (B : Fin 16 → Fin 16 → ℚ) :
    Fin 64 → Fin 16 → ℚ :=
  fun i j => ∑ k, A i k * B k j

/-- Reindexing of the K axis as group × position. -/
def kEquiv : Fin 16 × Fin 4 ≃ Fin 64 where
  toFun p := kIndex p.1 p.2
  invFun k := (⟨k.val / 4, by omega⟩, ⟨k.val % 4, by omega⟩)
  left_inv := by
    intro p
    have h4 := p.2.isLt
    ext
    · simp [kIndex]
      omega
    · simp [kIndex]
      omega
  right_inv := by
    intro k
    apply Fin.ext
    simp [kIndex]
    omega

/-! ## Global-memory state of one kernel launch

For the idempotence claim: the kernel reads the operand buffers (and, in
the sparse variant, the metadata buffer), and writes only the output
buffer. -/

structure DenseGlobals where
  A : Fin 64 → Fin 16 → ℚ
  B : Fin 16 → Fin 16 → ℚ
  C : Fin 64 → Fin 16 → ℚ

structure SparseGlobals where
  A2 : Fin 64 → Fin 32 → ℚ
  B : Fin 64 → Fin 8 → ℚ
  meta : Fin 64 → Fin 16 → Fin 4 × Fin 4
  C : Fin 64 → Fin 8 → ℚ

/-- One launch of the dense kernel: copy the operand tiles in, compute
from a zero-initialized accumulator, scatter the accumulator out to C.
The operand buffers are untouched. -/
def dense_kernel_run (s : DenseGlobals) : DenseGlobals :=
  { s with C := dense_matmul s.A s.B }

/-- One launch of the sparse kernel. -/
def sparse_kernel_run (s : SparseGlobals) : SparseGlobals :=
  { s with C := sparse_compute s.A2 s.meta s.B }

end H100

namespace H100

/-! ## Arithmetic forms of the thread coordinates -/

theorem land3_eq : ∀ x < 32, Nat.land x 3 = x % 4 := by decide

theorem shiftRight2_eq : ∀ x < 32, Nat.shiftRight x 2 = x / 4 := by decide

theorem dense_offset1_eq (t : ℕ) :
    dense_offset1 t = t / 32 * 128 + t % 32 / 4 * 8 + t % 32 % 4 := by
  have h32 : t % 32 < 32 := Nat.mod_lt _ (by norm_num)
  unfold dense_offset1 warp_id group_id lane_in_group lane_id
  rw [shiftRight2_eq _ h32, land3_eq _ h32]
  omega

theorem dense_offset2_eq (t : ℕ) :
    dense_offset2 t = t / 32 * 128 + t % 32 / 4 * 8 + 64 + t % 32 % 4 := by
  have h32 : t % 32 < 32 := Nat.mod_lt _ (by norm_num)
  unfold dense_offset2 warp_id group_id lane_in_group lane_id
  rw [shiftRight2_eq _ h32, land3_eq _ h32]
  omega

theorem sparse_offset1_eq (t : ℕ) :
    sparse_offset1 t = t / 32 * 64 + t % 32 / 4 * 4 + t % 32 % 4 := by
  have h32 : t % 32 < 32 := Nat.mod_lt _ (by norm_num)
  unfold sparse_offset1 warp_id group_id lane_in_group lane_id
  rw [shiftRight2_eq _ h32, land3_eq _ h32]
  omega

theorem sparse_offset2_eq (t : ℕ) :
    sparse_offset2 t = t / 32 * 64 + t % 32 / 4 * 4 + 32 + t % 32 % 4 := by
  have h32 : t % 32 < 32 := Nat.mod_lt _ (by norm_num)
  unfold sparse_offset2 warp_id group_id lane_in_group lane_id
  rw [shiftRight2_eq _ h32, land3_eq _ h32]
  omega

/-! ## Scatter-map lemmas -/

theorem dense_slot_bound (t s : ℕ) (ht : t < 128) (hs : s < 4) :
    dense_slot_offset t s < 512 := by
  have h1 := dense_offset1_eq t
  have h2 := dense_offset2_eq t
  interval_cases s <;> simp only [dense_slot_offset] <;> omega

theorem dense_slot_inj (t1 s1 t2 s2 : ℕ) (ht1 : t1 < 128) (hs1 : s1 < 4)
    (ht2 : t2 < 128) (hs2 : s2 < 4)
    (h : dense_slot_offset t1 s1 = dense_slot_offset t2 s2) :
    t1 = t2 ∧ s1 = s2 := by
  have e11 := dense_offset1_eq t1
  have e12 := dense_offset2_eq t1
  have e21 := dense_offset1_eq t2
  have e22 := dense_offset2_eq t2
  interval_cases s1 <;> interval_cases s2 <;>
    simp only [dense_slot_offset] at h <;> omega

theorem dense_slot_surj (n : ℕ) (hn : n < 512) :
    ∃ t < 128, ∃ s < 4, dense_slot_offset t s = n := by
  have e1 := dense_offset1_eq (n / 128 * 32 + n % 128 / 8 % 8 * 4 + n % 8 % 4)
  have e2 := dense_offset2_eq (n / 128 * 32 + n % 128 / 8 % 8 * 4 + n % 8 % 4)
  refine ⟨n / 128 * 32 + n % 128 / 8 % 8 * 4 + n % 8 % 4, by omega, ?_⟩
  rcases Nat.lt_or_ge (n % 8) 4 with h4 | h4 <;>
    rcases Nat.lt_or_ge (n % 128) 64 with h64 | h64
  · exact ⟨0, by omega, by simp only [dense_slot_offset]; omega⟩
  · exact ⟨1, by omega, by simp only [dense_slot_offset]; omega⟩
  · exact ⟨2, by omega, by simp only [dense_slot_offset]; omega⟩
  · exact ⟨3, by omega, by simp only [dense_slot_offset]; omega⟩

theorem sparse_slot_bound (t s : ℕ) (ht : t < 128) (hs : s < 2) :
    sparse_slot_offset t s < 256 := by
  have h1 := sparse_offset1_eq t
  have h2 := sparse_offset2_eq t
  interval_cases s <;> simp only [sparse_slot_offset] <;> omega

theorem sparse_slot_inj (t1 s1 t2 s2 : ℕ) (ht1 : t1 < 128) (hs1 : s1 < 2)
    (ht2 : t2 < 128) (hs2 : s2 < 2)
    (h : sparse_slot_offset t1 s1 = sparse_slot_offset t2 s2) :
    t1 = t2 ∧ s1 = s2 := by
  have e11 := sparse_offset1_eq t1
  have e12 := sparse_offset2_eq t1
  have e21 := sparse_offset1_eq t2
  have e22 := sparse_offset2_eq t2
  interval_cases s1 <;> interval_cases s2 <;>
    simp only [sparse_slot_offset] at h <;> omega

theorem sparse_slot_surj (n : ℕ) (hn : n < 256) :
    ∃ t < 128, ∃ s < 2, sparse_slot_offset t s = n := by
  have e1 := sparse_offset1_eq (n / 64 * 32 + n % 64 / 4 % 8 * 4 + n % 4)
  have e2 := sparse_offset2_eq (n / 64 * 32 + n % 64 / 4 % 8 * 4 + n % 4)
  refine ⟨n / 64 * 32 + n % 64 / 4 % 8 * 4 + n % 4, by omega, ?_⟩
  rcases Nat.lt_or_ge (n % 64) 32 with h32 | h32
  · exact ⟨0, by omega, by simp only [sparse_slot_offset]; omega⟩
  · exact ⟨1, by omega, by simp only [sparse_slot_offset]; omega⟩

/-- C4: for each fixed kernel shape, the result-scatter map from
(thread id in [0,128), register slot) to the 32-bit output offsets —
offset1, offset2, and for the dense kernel also offset1 + 4 and
offset2 + 4 — is a bijection onto the output extent (512 32-bit words for
the dense 64x16 output, 256 for the sparse 64x8 output): no output word is
written twice and none is left unwritten. -/
theorem result_scatter_bijective :
    Set.BijOn dense_scatter Set.univ (Set.Iio 512) ∧
    Set.BijOn sparse_scatter Set.univ (Set.Iio 256) := by
  constructor
  · refine ⟨fun p _ => ?_, fun p _ q _ h => ?_, fun n hn => ?_⟩
    · exact dense_slot_bound _ _ p.1.isLt p.2.isLt
    · obtain ⟨ht, hs⟩ := dense_slot_inj _ _ _ _ p.1.isLt p.2.isLt q.1.isLt q.2.isLt h
      exact Prod.ext (Fin.ext ht) (Fin.ext hs)
    · obtain ⟨t, ht, s, hs, he⟩ := dense_slot_surj n hn
      exact ⟨(⟨t, ht⟩, ⟨s, hs⟩), Set.mem_univ _, he⟩
  · refine ⟨fun p _ => ?_, fun p _ q _ h => ?_, fun n hn => ?_⟩
    · exact sparse_slot_bound _ _ p.1.isLt p.2.isLt
    · obtain ⟨ht, hs⟩ := sparse_slot_inj _ _ _ _ p.1.isLt p.2.isLt q.1.isLt q.2.isLt h
      exact Prod.ext (Fin.ext ht) (Fin.ext hs)
    · obtain ⟨t, ht, s, hs, he⟩ := sparse_slot_surj n hn
      exact ⟨(⟨t, ht⟩, ⟨s, hs⟩), Set.mem_univ _, he⟩

end H100

namespace H100

/-- C10: every load from metadata_array in the sparse kernel is in
bounds — for every thread id, both computed metadata offsets are strictly
below the allocated (M/16)*(K/16)*8 = 128 elements. -/
theorem metadata_loads_in_bounds :
    ∀ t : Fin 128, metadata_offset_first t.val < metadata_size ∧
      metadata_offset_second t.val < metadata_size := by decide

/-- C5: with the global array initialized to value i at index i, running
the 1D load/add-one/store kernel at tile coordinate 16 changes exactly the
elements at indices 16 through 31, each incremented by exactly 1, and
every other element keeps its original value i. -/
theorem add_one_kernel_frame :
    ∀ j : Fin 128,
      add_one_kernel (fun i => (i : ℤ)) 16 j.val =
        if 16 ≤ j.val ∧ j.val < 32 then (j.val : ℤ) + 1 else (j.val : ℤ) := by
  decide

/-- C6: in the sparse kernel, exactly two sparse mma calls are issued
before the single commit-batch; they address the two 32-wide K-sub-tiles
through descriptors based at A_shared and A_shared + K_A/2 (16 half
elements) with B descriptors at B_shared and B_shared + 32*N, use metadata
offsets differing by 8*2 = 16, cover a K extent of 32 + 32 = 64, and both
accumulate (scale-D = 1) into the one accumulator of the kernel. -/
theorem sparse_two_mma_structure :
    ∀ t : Fin 128,
      (sparse_kernel_trace t.val).filter isSparseMma =
        [KEvent.sparseMma 0 0 (metadata_offset_first t.val) 32 1,
         KEvent.sparseMma 16 256 (metadata_offset_first t.val + 16) 32 1] ∧
      (sparse_kernel_trace t.val).filter isCommit = [KEvent.commitBatch] ∧
      ((sparse_kernel_trace t.val).takeWhile (fun e => !isCommit e)).filter isSparseMma =
        (sparse_kernel_trace t.val).filter isSparseMma ∧
      (((sparse_kernel_trace t.val).filter isSparseMma).map kExtentOf).sum = 64 := by
  decide

/-- C7: in both kernels the accumulator is a fixed per-thread register
set — 4 registers for the dense m64n16k16 shape, 2 for the sparse
m64n8k32 shape — zero-initialized before the first compute call, updated
additively by every compute call (scale-D = 1, D = D + A*B), and read
exactly once at the end by the result scatter (stores of registers
0..3 resp. 0..1, each exactly once, all after the wait, and by nothing
else). -/
theorem accumulator_discipline :
    ∀ t : Fin 128,
      (dense_kernel_trace t.val).head? = some (KEvent.initAccZero 4) ∧
      (sparse_kernel_trace t.val).head? = some (KEvent.initAccZero 2) ∧
      (dense_kernel_trace t.val).all scaleDOne = true ∧
      (sparse_kernel_trace t.val).all scaleDOne = true ∧
      ((dense_kernel_trace t.val).filter isStore).map storeRegOf = [0, 1, 2, 3] ∧
      ((sparse_kernel_trace t.val).filter isStore).map storeRegOf = [0, 1] ∧
      ((dense_kernel_trace t.val).dropWhile (fun e => !isStore e)).all isStore = true ∧
      ((sparse_kernel_trace t.val).dropWhile (fun e => !isStore e)).all isStore = true := by
  decide

end H100

namespace H100

/-! ## Barrier invariants -/

theorem runBar_invariant (es : List BarEvent) :
    ∀ s0 s : BarState, runBar s0 es = some s →
      s.pendingArrivals + countArrivals es = s0.pendingArrivals ∧
      s.pendingTxBytes + creditedTxBytes es = s0.pendingTxBytes + declaredTxBytes es ∧
      s.phase = s0.phase := by
  induction es with
  | nil =>
    intro s0 s h
    simp [runBar] at h
    subst h
    simp [countArrivals, creditedTxBytes, declaredTxBytes]
  | cons e es ih =>
    intro s0 s h
    cases e with
    | arrive =>
      by_cases h0 : s0.pendingArrivals = 0
      · simp [runBar, barStep, h0] at h
      · simp only [runBar, barStep, h0, if_false, if_neg h0] at h
        obtain ⟨h1, h2, h3⟩ := ih _ _ h
        simp only [countArrivals, creditedTxBytes, declaredTxBytes] at h1 h2 h3 ⊢
        constructor
        · omega
        · exact ⟨by omega, h3⟩
    | arriveTx b =>
      by_cases h0 : s0.pendingArrivals = 0
      · simp [runBar, barStep, h0] at h
      · simp only [runBar, barStep, h0, if_neg h0] at h
        obtain ⟨h1, h2, h3⟩ := ih _ _ h
        simp only [countArrivals, creditedTxBytes, declaredTxBytes] at h1 h2 h3 ⊢
        constructor
        · omega
        · exact ⟨by omega, h3⟩
    | completeTx b =>
      by_cases h0 : b ≤ s0.pendingTxBytes
      · simp only [runBar, barStep, if_pos h0] at h
        obtain ⟨h1, h2, h3⟩ := ih _ _ h
        simp only [countArrivals, creditedTxBytes, declaredTxBytes] at h1 h2 h3 ⊢
        constructor
        · omega
        · exact ⟨by omega, h3⟩
      · simp [runBar, barStep, h0] at h

/-- C3: for any phase of the arrival barrier with 128 expected thread
arrivals, a wait can only return (the phase can only complete) once all
128 declared arrivals are in and every transaction byte registered via
arrive-with-transaction has been credited; the phase counter is unchanged
until then, and a new phase begins only at release. -/
theorem barrier_wait_requires_full_credit (es : List BarEvent) (s : BarState)
    (hrun : runBar (initBar 128) es = some s)
    (hdone : phaseComplete s) :
    countArrivals es = 128 ∧
    creditedTxBytes es = declaredTxBytes es ∧
    s.phase = 0 ∧
    (releaseBar s 128).phase = s.phase + 1 := by
  obtain ⟨h1, h2, h3⟩ := runBar_invariant es (initBar 128) s hrun
  obtain ⟨ha, ht⟩ := hdone
  simp only [initBar] at h1 h2 h3
  refine ⟨by omega, by omega, h3, rfl⟩

/-- Witness for C3: the dense kernel load schedule (thread 0 arrives
declaring 2560 transaction bytes, 127 threads plainly arrive, the copy
engine credits 2560 bytes) completes the phase, and the theorem applies. -/
theorem barrier_wait_requires_full_credit_witness :
    runBar (initBar 128) denseLoadSchedule = some ⟨0, 0, 0⟩ ∧
    phaseComplete ⟨0, 0, 0⟩ ∧
    (countArrivals denseLoadSchedule = 128 ∧
      creditedTxBytes denseLoadSchedule = declaredTxBytes denseLoadSchedule ∧
      (⟨0, 0, 0⟩ : BarState).phase = 0 ∧
      (releaseBar ⟨0, 0, 0⟩ 128).phase = (⟨0, 0, 0⟩ : BarState).phase + 1) :=
  ⟨by decide, by decide,
   barrier_wait_requires_full_credit denseLoadSchedule ⟨0, 0, 0⟩ (by decide) (by decide)⟩

end H100

namespace H100

/-! ## 2:4 compression lemmas -/

theorem mem_nzIndices (v : Fin 4 → ℚ) (t : Fin 4) : t ∈ nzIndices v ↔ v t ≠ 0 := by
  simp [nzIndices, List.mem_filter]

theorem sum_map_filter_eq (l : List (Fin 4)) (f : Fin 4 → ℚ) (p : Fin 4 → Bool)
    (h0 : ∀ x ∈ l, p x = false → f x = 0) :
    ((l.filter p).map f).sum = (l.map f).sum := by
  induction l with
  | nil => rfl
  | cons a l ih =>
    have ih2 := ih (fun x hx hpx => h0 x (List.mem_cons_of_mem _ hx) hpx)
    by_cases hp : p a = true
    · simp [List.filter_cons, hp, ih2]
    · have hfa : f a = 0 := h0 a (List.mem_cons_self a l) (by simpa using hp)
      simp [List.filter_cons, hp, hfa, ih2]

theorem nz_dot_eq (v bc : Fin 4 → ℚ) :
    ((nzIndices v).map (fun t => v t * bc t)).sum = ∑ t : Fin 4, v t * bc t := by
  rw [Fin.sum_univ_def]
  exact sum_map_filter_eq _ _ _ (fun x _ hx => by
    have hvx : v x = 0 := by simpa using hx
    simp [hvx])

theorem group_term_eq (v bc : Fin 4 → ℚ) (h : is24 v) :
    ((nzIndices v).map v).getD 0 0 * bc ((nzIndices v).getD 0 0) +
    ((nzIndices v).map v).getD 1 0 * bc ((nzIndices v).getD 1 0) =
    ∑ t : Fin 4, v t * bc t := by
  obtain ⟨a, b, hab⟩ := List.length_eq_two.mp h
  rw [← nz_dot_eq v bc, hab]
  simp [List.getD]

theorem sum_over_groups (f : Fin 64 → ℚ) :
    ∑ k, f k = ∑ g : Fin 16, ∑ t : Fin 4, f (kIndex g t) := by
  rw [← Equiv.sum_comp kEquiv f, Fintype.sum_prod_type]
  rfl

theorem compress24_col0 (A : Fin 64 → Fin 64 → ℚ) (i : Fin 64) (g : Fin 16) :
    compress24 A i ⟨2 * g.val, by omega⟩ =
      ((nzIndices (groupOf A i g)).map (groupOf A i g)).getD 0 0 := by
  have hg : (⟨(⟨2 * g.val, by omega⟩ : Fin 32).val / 2, by omega⟩ : Fin 16) = g :=
    Fin.ext (show 2 * g.val / 2 = g.val by omega)
  have hm : (⟨2 * g.val, by omega⟩ : Fin 32).val % 2 = 0 :=
    show 2 * g.val % 2 = 0 by omega
  simp only [compress24, hg, hm]

theorem compress24_col1 (A : Fin 64 → Fin 64 → ℚ) (i : Fin 64) (g : Fin 16) :
    compress24 A i ⟨2 * g.val + 1, by omega⟩ =
      ((nzIndices (groupOf A i g)).map (groupOf A i g)).getD 1 0 := by
  have hg : (⟨(⟨2 * g.val + 1, by omega⟩ : Fin 32).val / 2, by omega⟩ : Fin 16) = g :=
    Fin.ext (show (2 * g.val + 1) / 2 = g.val by omega)
  have hm : (⟨2 * g.val + 1, by omega⟩ : Fin 32).val % 2 = 1 :=
    show (2 * g.val + 1) % 2 = 1 by omega
  simp only [compress24, hg, hm]

/-- C2: for every A (64x64) satisfying the 2:4 structured-sparsity
invariant and every B (64x8), the sparse compute pipeline operating on the
compressed A (64x32) together with the metadata produces, in exact
arithmetic, the same result as multiplying the original uncompressed A by
B. -/
theorem sparse_matches_uncompressed (A : Fin 64 → Fin 64 → ℚ)
    (B : Fin 64 → Fin 8 → ℚ) (h : has24pattern A) :
    ∀ i j, sparse_compute (compress24 A) (inspect_metadata A) B i j =
      gemm_ref A B i j := by
  intro i j
  unfold sparse_compute gemm_ref
  rw [sum_over_groups (fun k => A i k * B k j)]
  refine Finset.sum_congr rfl (fun g _ => ?_)
  rw [compress24_col0 A i g, compress24_col1 A i g]
  simp only [inspect_metadata]
  exact group_term_eq (groupOf A i g) (fun t => B (kIndex g t) j) (h i g)

/-- Witness for C2 at a concrete 2:4 matrix (each K-4-group is 1,1,0,0)
and all-ones B. -/
theorem sparse_matches_uncompressed_witness :
    has24pattern (fun _ k => if k.val % 4 < 2 then (1 : ℚ) else 0) ∧
    (∀ i j, sparse_compute
        (compress24 (fun _ k => if k.val % 4 < 2 then (1 : ℚ) else 0))
        (inspect_metadata (fun _ k => if k.val % 4 < 2 then (1 : ℚ) else 0))
        (fun _ _ => (1 : ℚ)) i j =
      gemm_ref (fun _ k => if k.val % 4 < 2 then (1 : ℚ) else 0)
        (fun _ _ => (1 : ℚ)) i j) :=
  ⟨by decide,
   sparse_matches_uncompressed _ _ (by decide)⟩

end H100

namespace H100

/-- C8 counterexample: the claim that every descriptor-build call satisfies
the alignment its swizzle mode requires is false on the code — the second
sparse `make_desc<half *, 8, 32, 2>(A_shared + K_A / 2)` call passes a
pointer 32 bytes past the 128-byte-aligned A_shared, which is never
128-byte aligned (shown at buffer base address 0). -/
theorem desc_align_claim_false : ¬ descAlignClaim := fun h =>
  absurd (h ⟨32, 128, 2⟩ (by decide) 0 (by decide)) (by decide)

/-- C8 amended: every base pointer passed to a matrix-descriptor build
call is at least 16-byte aligned, and the swizzled calls whose base is the
start of the 128-byte-aligned A_shared buffer (dense desc_a, first sparse
desc_a) are 128-byte aligned. -/
theorem desc_calls_alignment (c : DescCall) (hc : c ∈ make_desc_calls) :
    alignedFor c 16 ∧
    (c.byteOffset = 0 → c.bufferAlign = 128 → alignedFor c 128) := by
  fin_cases hc <;>
    refine ⟨fun base hb => ?_, fun h1 h2 base hb => ?_⟩ <;>
    simp_all <;> omega

/-- Witness for the amended C8 at the dense desc_a call with buffer base
address 256. -/
theorem desc_calls_alignment_witness :
    (⟨0, 128, 3⟩ : DescCall) ∈ make_desc_calls ∧
    ((256 : ℕ) + (⟨0, 128, 3⟩ : DescCall).byteOffset) % 16 = 0 ∧
    ((256 : ℕ) + (⟨0, 128, 3⟩ : DescCall).byteOffset) % 128 = 0 :=
  ⟨by decide,
   (desc_calls_alignment ⟨0, 128, 3⟩ (by decide)).1 256 (by decide),
   (desc_calls_alignment ⟨0, 128, 3⟩ (by decide)).2 rfl rfl 256 (by decide)⟩

/-- C9: running the complete copy-in/compute/copy-out sequence twice on
the same unchanged global input produces identical output: the kernels
read only the operand buffers (and, for the sparse variant, the metadata
buffer), never modify them, and write the output as a function of them
alone, so a second run writes the same values. -/
theorem kernel_runs_idempotent :
    ∀ (s : DenseGlobals) (t : SparseGlobals),
      dense_kernel_run (dense_kernel_run s) = dense_kernel_run s ∧
      sparse_kernel_run (sparse_kernel_run t) = sparse_kernel_run t := by
  intro s t
  exact ⟨rfl, rfl⟩

end H100
